import Mathlib

/-!
Verification development for the ipcamsd record discovery, filtering and
file-assembly pipeline (Node.js sources: lib/firmware classes for the
Hi3510 and Reolink camera families plus the shared Base orchestrator).

The JavaScript sources are shallowly embedded: strings are Lean strings
(JS relational operators on strings are lexicographic, as is the Lean
order on strings), optional or possibly undefined values are Option,
JS truthiness on optional strings is made explicit, and all network and
HTML-parsing effects are passed in as explicit oracles.
-/

namespace JsStr

/-- JS template interpolation of a possibly undefined value: undefined
prints as the string "undefined". -/
def optToStr (o : Option String) : String := o.getD "undefined"

/-- Emptiness of a string through its character list. -/
def strIsEmpty (s : String) : Bool := s.data.isEmpty

/-- JS truthiness of a possibly undefined string: undefined and the empty
string are falsy. -/
def jsTruthy : Option String → Bool
  | none => false
  | some s => !(strIsEmpty s)

/-- The JS expression a || d for a possibly undefined string a: returns d
when a is undefined or empty, otherwise a. -/
def orDefault (a : Option String) (d : String) : String :=
  match a with
  | none => d
  | some s => if strIsEmpty s then d else s

/-- JS String.prototype.slice with non-negative indices a ≤ b. -/
def jsSlice (s : String) (a b : Nat) : String :=
  String.mk ((s.data.drop a).take (b - a))

/-- Whether the list sub occurs at the head of l (used to model
String.prototype.indexOf membership tests). -/
def hasLead : List Char → List Char → Bool
  | [], _ => true
  | _ :: _, [] => false
  | a :: s, b :: t => a == b && hasLead s t

/-- Whether sub occurs contiguously anywhere in l. -/
def hasInfix (l sub : List Char) : Bool :=
  hasLead sub l ||
    match l with
    | [] => false
    | _ :: t => hasInfix t sub

/-- JS s.indexOf(sub) !== -1: the substring sub occurs in s. -/
def strHasInfix (s sub : String) : Bool := hasInfix s.data sub.data

/-- JS item.slice(0, -1): drop the final character. -/
def dropLastChar (s : String) : String := String.mk (s.data.dropLast)

/-- Boolean lexicographic strict comparison of character lists (the order
JS applies to strings). -/
def listLtB : List Char → List Char → Bool
  | [], [] => false
  | [], _ :: _ => true
  | _ :: _, [] => false
  | a :: s, b :: t => if a < b then true else if b < a then false else listLtB s t

/-- Boolean strict comparison of strings, as JS s1 < s2. -/
def strLtB (s t : String) : Bool := listLtB s.data t.data

/-- Boolean comparison of strings, as JS s1 <= s2. -/
def strLeB (s t : String) : Bool := !(strLtB t s)

/-- JS String.prototype.trim: strip whitespace from both ends. -/
def jsTrim (s : String) : String :=
  String.mk (((s.data.dropWhile Char.isWhitespace).reverse.dropWhile Char.isWhitespace).reverse)

/-- ASCII lower-casing of one character (JS toLowerCase on the
alphabets the sources compare against). -/
def jsCharToLower (c : Char) : Char :=
  if 'A' ≤ c ∧ c ≤ 'Z' then Char.ofNat (c.toNat + 32) else c

/-- JS String.prototype.toLowerCase. -/
def jsToLower (s : String) : String := String.mk (s.data.map jsCharToLower)

/-- JS '0'.repeat(n) concatenated to the right of s. -/
def padRightZeros (s : String) (n : Nat) : String :=
  s ++ String.mk (List.replicate n '0')

/-- JS a < b for two possibly undefined strings: any comparison involving
undefined is false (it goes through NaN), otherwise lexicographic. -/
def jsLtOpt : Option String → Option String → Bool
  | some a, some b => strLtB a b
  | _, _ => false

end JsStr

open JsStr

/-! ## Calendar model (shallow embedding of the moment.js calls the code makes) -/

/-- A calendar date (year, 1-based month, 1-based day). -/
structure Ymd where
  year : Nat
  mon : Nat
  day : Nat
deriving DecidableEq, Repr

/-- Gregorian leap-year rule. -/
def isLeapYear (y : Nat) : Bool := (y % 4 == 0 && y % 100 != 0) || y % 400 == 0

/-- Number of days in a month. -/
def daysInMonth (y m : Nat) : Nat :=
  if m == 2 then (if isLeapYear y then 29 else 28)
  else if m == 4 || m == 6 || m == 9 || m == 11 then 30
  else 31

/-- The next calendar day (models moment add of one day). -/
def nextDay (d : Ymd) : Ymd :=
  if d.day < daysInMonth d.year d.mon then ⟨d.year, d.mon, d.day + 1⟩
  else if d.mon < 12 then ⟨d.year, d.mon + 1, 1⟩
  else ⟨d.year + 1, 1, 1⟩

/-- The previous calendar day (models moment subtract of one day). -/
def prevDay (d : Ymd) : Ymd :=
  if 1 < d.day then ⟨d.year, d.mon, d.day - 1⟩
  else if 1 < d.mon then ⟨d.year, d.mon - 1, daysInMonth d.year (d.mon - 1)⟩
  else ⟨d.year - 1, 12, 31⟩

/-- Zero-padded decimal rendering of width w. -/
def zeroPad (w n : Nat) : String :=
  let s := toString n
  String.mk (List.replicate (w - s.length) '0') ++ s

/-- moment format with pattern YYYYMMDD. -/
def fmtDate (d : Ymd) : String := zeroPad 4 d.year ++ zeroPad 2 d.mon ++ zeroPad 2 d.day

/-- Numeric value of a digit string. -/
def natOfDigits (s : String) : Nat := s.data.foldl (fun a c => a * 10 + (c.toNat - 48)) 0

/-- moment parse of a YYYYMMDD string; none models an invalid moment. -/
def parseYyyymmdd (s : String) : Option Ymd :=
  if s.length == 8 && s.data.all Char.isDigit then
    let y := natOfDigits (jsSlice s 0 4)
    let m := natOfDigits (jsSlice s 4 6)
    let d := natOfDigits (jsSlice s 6 8)
    if 1 ≤ m && m ≤ 12 && 1 ≤ d && d ≤ daysInMonth y m then some ⟨y, m, d⟩ else none
  else none

/-- moment(s).add(1, days).format(YYYYMMDD); an unparsable input formats as
the string "Invalid date". -/
def momentAddDayFmt (s : String) : String :=
  match parseYyyymmdd s with
  | some d => fmtDate (nextDay d)
  | none => "Invalid date"

/-- The wall clock (models moment() now): current date and time of day. -/
structure Clock where
  date : Ymd
  hour : Nat
  minute : Nat
  second : Nat
deriving DecidableEq, Repr

/-- moment() minus n minutes (seconds are unchanged; whole days borrow
through the calendar). -/
def subMinutes (c : Clock) (n : Nat) : Clock :=
  let tod := c.hour * 60 + c.minute
  if n ≤ tod then ⟨c.date, (tod - n) / 60, (tod - n) % 60, c.second⟩
  else
    let rem := n - tod
    let days := (rem + 1439) / 1440
    let tod2 := days * 1440 + tod - n
    ⟨prevDay^[days] c.date, tod2 / 60, tod2 % 60, c.second⟩

/-- moment format with pattern HHmmss. -/
def fmtTime (c : Clock) : String := zeroPad 2 c.hour ++ zeroPad 2 c.minute ++ zeroPad 2 c.second

/-! ## Ipcamsd settings validation (src/ipcamsd.mjs) -/

/-- JS truthiness of a possibly undefined number: undefined and 0 are falsy. -/
def jsTruthyNat : Option Nat → Bool
  | none => false
  | some n => n != 0

/-- The dateTime block of the settings object built by Ipcamsd: the
date/time range filter together with the separate-by-date flag, the
last-minutes window and the start delay. -/
structure DateTimeSettings where
  dateStart : Option String
  dateEnd : Option String
  timeStart : Option String
  timeEnd : Option String
  separateByDate : Bool
  lastMinutes : Option Nat
  startDelay : Option Nat
deriving DecidableEq, Repr

/-- Ipcamsd.processRecordFilter: trims the value, left-pads a single
character with one zero, right-pads with zeros up to six characters, and
yields no filter for an absent or blank value. -/
def processRecordFilter : Option String → Option String
  | none => none
  | some f =>
    if strIsEmpty f then none
    else
      let t := jsTrim f
      if 0 < t.length then
        if t.length < 6 then
          let t2 := if t.length == 1 then "0" ++ t else t
          some (padRightZeros t2 (6 - t2.length))
        else some t
      else none

/-- Ipcamsd.getDateByParameters: resolves the literals today and yesterday
against the clock and passes any other value through. -/
def getDateByParameters (clock : Clock) : Option String → Option String
  | none => none
  | some s =>
    if strIsEmpty s then some s
    else if jsToLower s == "today" then some (fmtDate clock.date)
    else if jsToLower s == "yesterday" then some (fmtDate (prevDay clock.date))
    else some s

/-- Ipcamsd.validateDateTime: defaults the start date to today, resolves
both dates, processes both time filters, defaults the end date (adding one
day when the end time precedes the start time), and applies the
last-minutes override to the start date/time. -/
def validateDateTime (clock : Clock) (dt : DateTimeSettings) : DateTimeSettings :=
  let ds0 : Option String := if jsTruthy dt.dateStart then dt.dateStart else some "today"
  let ds1 := getDateByParameters clock ds0
  let de1 := getDateByParameters clock dt.dateEnd
  let ts1 := processRecordFilter dt.timeStart
  let te1 := processRecordFilter dt.timeEnd
  let de2 :=
    if jsTruthy de1 then de1
    else if jsLtOpt te1 ts1 then some (momentAddDayFmt (optToStr ds1)) else ds1
  if jsTruthyNat dt.lastMinutes then
    let sd := subMinutes clock (dt.lastMinutes.getD 0)
    { dt with dateStart := some (fmtDate sd.date), dateEnd := de2,
              timeStart := some (fmtTime sd), timeEnd := te1 }
  else
    { dt with dateStart := ds1, dateEnd := de2, timeStart := ts1, timeEnd := te1 }

/-- The start date after defaulting to today and resolution against the
clock, as computed inside validateDateTime. -/
def resolvedStartDate (clock : Clock) (dt : DateTimeSettings) : Option String :=
  getDateByParameters clock (if jsTruthy dt.dateStart then dt.dateStart else some "today")

/-! ## HTTP layer (Base.httpContentRequest) and HTML table parsing -/

/-- Outcome of one axios transaction: an HTTP response with status and
body, a transport error (DNS failure, connection refused, ...), or a
timeout. -/
inductive ReqResult where
  | response (status : Nat) (body : String)
  | transportError (msg : String)
  | timeout
deriving DecidableEq, Repr

/-- Base.httpContentRequest: returns the body only for a status 200
response; a thrown transport error or timeout is caught and logged, and a
non-200 status fails the response check, both yielding no content. -/
def httpContentRequest : ReqResult → Option String
  | .response status body => if status == 200 then some body else none
  | .transportError _ => none
  | .timeout => none

/-- Hi3510.getTableRowItems: requests the URL and, when a (truthy) body
came back, parses the HTML table rows, skips the first three rows, and
collects the anchor text of each remaining row. The Cheerio row/anchor
extraction is the oracle parse, giving the anchor text of every table row
of a body. -/
def getTableRowItems (fetch : String → ReqResult) (parse : String → List String)
    (url : String) : List String :=
  match httpContentRequest (fetch url) with
  | some body => if strIsEmpty body then [] else (parse body).drop 3
  | none => []

/-! ## Hi3510 firmware (src/firmwares/hi3510.mjs variant with parent URLs) -/

/-- Which part of a record filename to extract. -/
inductive PartKind where
  | date
  | time
deriving DecidableEq, Repr

/-- Hi3510.extractDatePartValue: fixed-offset codec over the raw
filename; the date is characters 1 to 6, the start time characters 8 to
13, the end time characters 15 to 20; empty input decodes to nothing. -/
def hi3510Extract (date : String) (part : PartKind) (start : Bool) : Option String :=
  if strIsEmpty date then none
  else
    match part with
    | .date => some (jsSlice date 1 7)
    | .time => some (if start then jsSlice date 8 14 else jsSlice date 15 21)

/-- Hi3510.setBaseUrl: scheme, host and the /sd root. -/
def hi3510BaseUrl (ssl : Bool) (host : String) : String :=
  "http" ++ (if ssl then "s" else "") ++ "://" ++ host ++ "/sd"

/-- The date-range condition of Hi3510.getDateEntries: an absent (falsy)
bound is skipped by short-circuit, a present bound is compared to the
date as a plain string. -/
def dateKeep (startDate endDate : Option String) (date : String) : Bool :=
  (if jsTruthy startDate then strLeB (orDefault startDate "") date else true) &&
  (if jsTruthy endDate then strLeB date (orDefault endDate "") else true)

/-- Hi3510.getDateEntries applied to the listed items: strips the
trailing slash from each item and keeps those inside the optional
start/end date bounds (plain string comparison). -/
def dateEntriesOfItems (startDate endDate : Option String) : List String → List String
  | [] => []
  | item :: rest =>
    let date := dropLastChar item
    if dateKeep startDate endDate date then date :: dateEntriesOfItems startDate endDate rest
    else dateEntriesOfItems startDate endDate rest

/-- Hi3510.getDateEntries: lists the SD root and filters the dates. -/
def getDateEntries (fetch : String → ReqResult) (parse : String → List String)
    (baseUrl : String) (startDate endDate : Option String) : List String :=
  dateEntriesOfItems startDate endDate (getTableRowItems fetch parse baseUrl)

/-- Hi3510.getParentUrls: lists the date directory and returns the URL of
every entry except the recdata.db sentinel. -/
def getParentUrls (fetch : String → ReqResult) (parse : String → List String)
    (baseUrl date : String) : List String :=
  let url := baseUrl ++ "/" ++ date
  (getTableRowItems fetch parse url).foldr
    (fun entry acc => if entry != "recdata.db" then (url ++ "/" ++ entry) :: acc else acc) []

/-- Hi3510.getDateAndTimeFilterAsString: composite filter bound (date
part or default, underscore, time part or default) and composite record
key (directory date, underscore, extracted time). The first component is
the filter string, the second the record key. -/
def getDateAndTimeFilterAsString (date record : String) (f : DateTimeSettings)
    (start : Bool) : String × String :=
  let defaultValue := if start then "000000" else "999999"
  let time := hi3510Extract record PartKind.time start
  ((orDefault (if start then f.dateStart else f.dateEnd) defaultValue) ++ "_" ++
      (orDefault (if start then f.timeStart else f.timeEnd) defaultValue),
    date ++ "_" ++ optToStr time)

/-- Hi3510.isValidRecord: the record passes when its start or end key is
at least the start bound and its end or start key is at most the end
bound. -/
def isValidRecord (date record : String) (f : DateTimeSettings) : Bool :=
  let s := getDateAndTimeFilterAsString date record f true
  let e := getDateAndTimeFilterAsString date record f false
  (strLeB s.1 s.2 || strLeB s.1 e.2) && (strLeB e.2 e.1 || strLeB s.2 e.1)

/-- The admission test applied to each listed entry in
Hi3510.get264Entries: the name must not contain the 999999 sentinel and
must pass isValidRecord. -/
def admit264 (date entry : String) (f : DateTimeSettings) : Bool :=
  !(strHasInfix entry "999999") && isValidRecord date entry f

/-- The entries of one parent directory listing that pass admission. -/
def admittedOfItems (date : String) (f : DateTimeSettings) : List String → List String
  | [] => []
  | entry :: rest =>
    if admit264 date entry f then entry :: admittedOfItems date f rest
    else admittedOfItems date f rest

/-- Hi3510.get264Entries: walks the parent directories of the date in
order and collects, per parent listing, the admitted record names. -/
def get264Entries (fetch : String → ReqResult) (parse : String → List String)
    (baseUrl date : String) (f : DateTimeSettings) : List String :=
  (getParentUrls fetch parse baseUrl date).foldl
    (fun acc parentUrl =>
      acc ++ admittedOfItems date f (getTableRowItems fetch parse parentUrl)) []

/-- One date with its discovered records. -/
structure DateEntry where
  date : String
  records : List String
deriving DecidableEq, Repr

/-- The loop body of Hi3510.getRecords: pushes a date entry for each
discovered date, breaking out when the produced list is as long as the
full entry list (the JS loop's early break check, done = number of
entries already produced). -/
def getRecordsLoop (g : String → List String) (total : Nat) :
    List String → Nat → List DateEntry
  | [], _ => []
  | v :: rest, done =>
    let e : DateEntry := ⟨v, g v⟩
    if total == done + 1 then [e] else e :: getRecordsLoop g total rest (done + 1)

/-- Hi3510.getRecords: discovers date entries in range, and for each one
(in order) fetches its admitted records, keeping the date even when no
record passes. -/
def hi3510GetRecords (fetch : String → ReqResult) (parse : String → List String)
    (baseUrl : String) (dt : DateTimeSettings) : List DateEntry :=
  let entries := getDateEntries fetch parse baseUrl dt.dateStart dt.dateEnd
  getRecordsLoop (fun v => get264Entries fetch parse baseUrl v dt) entries.length entries 0

/-! ## Base orchestrator: settings assembly and output filename derivation -/

/-- A firmware filename codec: the subclass hook extractDatePartValue,
taking the filename, the part selector and the start flag. -/
def Codec := String → PartKind → Bool → Option String

/-- path.basename: the final path component. -/
def extractFilename (value : String) : String :=
  String.mk ((value.data.reverse.takeWhile (fun c => c != '/')).reverse)

/-- The decoded date, start time and end time of a record filename. -/
structure DateTimeParts where
  date : Option String
  tStart : Option String
  tEnd : Option String
deriving DecidableEq, Repr

/-- Base.getDateAndTimeParts: decode the basename of a record path with
the firmware codec. -/
def getDateAndTimeParts (codec : Codec) (value : String) : DateTimeParts :=
  let content := extractFilename value
  ⟨codec content PartKind.date false,
   codec content PartKind.time true,
   codec content PartKind.time false⟩

/-- The fs block of the settings object: target directory, user filename
prefix value, and the explicit output filenames (an absent option is
modelled as the empty list). -/
structure FsSettings where
  directory : Option String
  prefixOpt : Option String
  name : List String
deriving DecidableEq, Repr

/-- The ffmpeg block of the settings object. -/
structure FfmpegSettings where
  videoFilter : List String
  targetFileType : Option String
deriving DecidableEq, Repr

/-- The settings object assembled by Ipcamsd.getSettings for fetch. -/
structure Settings where
  fs : FsSettings
  ffmpeg : FfmpegSettings
  dateTime : DateTimeSettings
deriving DecidableEq, Repr

/-- The fetch command options relevant to the settings object. -/
structure FetchOptions where
  targetDirectory : Option String
  filenamePrefix : Option String
  filename : List String
  videoFilter : List String
  targetFileType : Option String
  startDate : Option String
  endDate : Option String
  startTime : Option String
  endTime : Option String
  separateByDate : Bool
  lastMinutes : Option Nat
  startDelay : Option Nat
deriving DecidableEq, Repr

/-- Ipcamsd.getSettings for the fetch command: copies the fs and ffmpeg
options (the target file type falls back to the mp4 default) and
validates the date/time block. -/
def getSettings (clock : Clock) (o : FetchOptions) : Settings :=
  { fs := ⟨o.targetDirectory, o.filenamePrefix, o.filename⟩,
    ffmpeg := ⟨o.videoFilter, some (orDefault o.targetFileType "mp4")⟩,
    dateTime := validateDateTime clock
      ⟨o.startDate, o.endDate, o.startTime, o.endTime,
       o.separateByDate, o.lastMinutes, o.startDelay⟩ }

/-- Base.getFilenameByIdx: the explicit output filename for this host
index, when the filename list is non-empty; indexing past the end of the
list yields undefined. -/
def getFilenameByIdx (s : Settings) (idx : Nat) : Option String :=
  if s.fs.name.length != 0 then s.fs.name.get? idx else none

/-- Base.getFilenamePrefix: optional user value and underscore, then the
host and an underscore. -/
def getFilenamePrefix (s : Settings) (host : String) : String :=
  (if jsTruthy s.fs.prefixOpt then orDefault s.fs.prefixOpt "" ++ "_" else "") ++ host ++ "_"

/-- Base.getFileTypeByFfmpegParams: the lower-cased target file type when
one is set. -/
def getFileTypeByFfmpegParams (s : Settings) : Option String :=
  match s.ffmpeg.targetFileType with
  | some t => if strIsEmpty t then none else some (jsToLower t)
  | none => none

/-- The range part of a derived output filename: date and start time of
the first record, then the date of the last record when it differs from
the first, then the end time of the last record (of the only record when
there is just one). -/
def rangeOfRecords (codec : Codec) (r0 : String) (rest : List String) : String :=
  let first := getDateAndTimeParts codec r0
  let base := optToStr first.date ++ "_" ++ optToStr first.tStart
  match rest with
  | [] => base ++ "_" ++ optToStr first.tEnd
  | h :: t =>
    let last := getDateAndTimeParts codec ((h :: t).getLastD h)
    let base2 := if last.date != first.date then base ++ "_" ++ optToStr last.date else base
    base2 ++ "_" ++ optToStr last.tEnd

/-- Base.getFilename: no name for an empty record list; the explicit
filename is used (with the type extension) only outside separate-by-date
mode; otherwise prefix, derived range and type extension. -/
def getFilename (codec : Codec) (host : String) (idx : Nat) (s : Settings)
    (records : List String) (separateByDate : Bool) : Option String :=
  match records with
  | [] => none
  | r0 :: rest =>
    let name := getFilenameByIdx s idx
    let typeStr := optToStr (getFileTypeByFfmpegParams s)
    if jsTruthy name && !separateByDate then
      some (orDefault name "" ++ "." ++ typeStr)
    else
      some (getFilenamePrefix s host ++ rangeOfRecords codec r0 rest ++ "." ++ typeStr)

/-! ## Reolink firmware (query-API variant) -/

/-- The params object threaded through the Reolink per-day requests: the
day index, the number of days, and whether the end bound is being
computed (the absent end property is modelled as false). -/
structure TimeParams where
  idx : Nat
  length : Nat
  endFlag : Bool
deriving DecidableEq, Repr

/-- Reolink.getTime: the default time (000000 for a start bound, 235959
for an end bound) is used when the user time is unset, on interior days,
for the end bound of a non-final first day, and for the start bound of a
non-initial last day; otherwise the user time is used. -/
def getTime (time : Option String) (p : TimeParams) : String :=
  let first := p.idx == 0
  let last := p.idx == p.length - 1
  let multiple := decide (p.length > 1)
  let conditions : List Bool :=
    [!(jsTruthy time), !first && !last,
     first && multiple && p.endFlag, last && multiple && !p.endFlag]
  if conditions.contains true then (if p.endFlag then "235959" else "000000")
  else optToStr time

/-- The date/time object of the Reolink search payload (JS keys year,
mon, day, hour, min, sec). -/
structure DateTimeFields where
  year : Nat
  mon : Nat
  day : Nat
  hour : Nat
  minute : Nat
  second : Nat
deriving DecidableEq, Repr

/-- Hour, minute and second of an HHmmss string (moment parse with the
HHmmss pattern). -/
def hmsOfTimeString (v : String) : Nat × Nat × Nat :=
  (natOfDigits (jsSlice v 0 2), natOfDigits (jsSlice v 2 4), natOfDigits (jsSlice v 4 6))

/-- Reolink.getDateAndTime: the calendar fields of the day (the source
reads the 0-based moment month and adds one; Ymd.mon is already 1-based)
and the clock fields of the selected time string. -/
def getDateAndTime (date : Ymd) (time : Option String) (p : TimeParams) : DateTimeFields :=
  let v := getTime time p
  let hms := hmsOfTimeString v
  ⟨date.year, date.mon, date.day, hms.1, hms.2.1, hms.2.2⟩

/-- The Search command payload of Reolink.getPlaybackListPostData. -/
structure SearchPayload where
  cmd : String
  action : Nat
  channel : Nat
  onlyStatus : Nat
  streamType : String
  startTime : DateTimeFields
  endTime : DateTimeFields
deriving DecidableEq, Repr

/-- Reolink.getPlaybackListPostData: the search payload for one day; the
start bound uses the params as passed, the end bound sets the end flag. -/
def getPlaybackListPostData (date : Ymd) (start finish : Option String)
    (p : TimeParams) : SearchPayload :=
  ⟨"Search", 0, 0, 0, "main",
   getDateAndTime date start p,
   getDateAndTime date finish { p with endFlag := true }⟩

/-- Reolink.getRecords: when the dateTime argument carries a date field,
sweep the day range (the sweep is the composition of getDateRange,
requestPlaybackList and addDate, abstracted over the network); when it
does not (the list command passes an empty object), return no dates
without issuing any request. -/
def reolinkGetRecords (sweep : Option String → Option String → List DateEntry)
    (dateFields : Option (Option String × Option String)) : List DateEntry :=
  match dateFields with
  | some (s, e) => sweep s e
  | none => []

/-- Base.list: with at least one date entry, logs each date and, for a
date with records, logs and collects first or first - last; with none,
logs No records found. Returns the log lines and the collected result
(none models the undefined return of the empty branch). -/
def baseList (dates : List DateEntry) : List String × Option (List String) :=
  if dates.length != 0 then
    let step := fun (acc : List String × List String) (d : DateEntry) =>
      let logs := acc.1 ++ [d.date]
      if d.records.length > 0 then
        let first := d.records.headD ""
        let lastStr := if d.records.length > 1 then " - " ++ d.records.getLastD "" else ""
        let entry := first ++ lastStr
        (logs ++ [entry], acc.2 ++ [entry])
      else (logs, acc.2)
    let r := dates.foldl step ([], [])
    (r.1, some r.2)
  else (["No records found"], none)

/-- The list command against the Reolink firmware: Base.list invokes
getRecords with an empty settings object, which carries no date field. -/
def listReolink (sweep : Option String → Option String → List DateEntry) :
    List String × Option (List String) :=
  baseList (reolinkGetRecords sweep none)

/-! ## Helper lemmas -/

/-- Concrete clock for the claim C5 witness. -/
def c5Clock : Clock := ⟨⟨2023, 5, 5⟩, 0, 0, 0⟩

/-- Concrete date/time options for the claim C5 witness: no end date, end
time before start time. -/
def c5Dt : DateTimeSettings := ⟨some "20230228", none, some "230000", some "010000", false, none, none⟩

/-- An eight-character digit string (a zero-padded YYYYMMDD date). -/
def isDigitString8 (s : String) : Bool := s.length == 8 && s.data.all Char.isDigit

/-- Concrete network for the claim C10 witness: the SD root lists one
date directory, and the date directory request fails with a 404. -/
def c10Fetch : String → ReqResult := fun url =>
  if url == "http://h/sd" then ReqResult.response 200 "root" else ReqResult.response 404 ""

/-- Concrete row parser for the claim C10 witness. -/
def c10Parse : String → List String := fun body =>
  if body == "root" then ["r1", "r2", "r3", "20230101/"] else []

/-- Unfiltered date/time options for the claim C10 witness. -/
def c10Dt : DateTimeSettings := ⟨none, none, none, none, false, none, none⟩

/-- Codec for the claim C2 witness: a record decoding to the date
20230101 with start 120000 and end 123000. -/
def c2Codec : Codec := fun _ part start =>
  match part with
  | PartKind.date => some "20230101"
  | PartKind.time => if start then some "120000" else some "123000"

/-- Fetch options for the claim C2 witness: no prefix, no explicit
filename, default target file type. -/
def c2Opts : FetchOptions :=
  ⟨none, none, [], [], none, none, none, none, none, false, none, none⟩

/-- Clock for the claim C2 witness. -/
def c2Clock : Clock := ⟨⟨2023, 1, 1⟩, 0, 0, 0⟩

/-- Codec for the claim C8 counterexample. -/
def c8Codec : Codec := fun _ part start =>
  match part with
  | PartKind.date => some "230101"
  | PartKind.time => if start then some "120000" else some "123000"

/-- Settings for the claim C8 counterexample: an explicit output filename
for host index 0 and separate-by-date mode. -/
def c8Settings : Settings :=
  ⟨⟨none, none, ["custom"]⟩, ⟨[], some "mp4"⟩, ⟨none, none, none, none, true, none, none⟩⟩

/-- The composite start bound of the record filter as the specification
describes it: date start part or the 000000 default, an underscore, time
start part or the 000000 default. -/
def filterStartKey (f : DateTimeSettings) : String :=
  orDefault f.dateStart "000000" ++ "_" ++ orDefault f.timeStart "000000"

/-- The composite end bound of the record filter: date end part or the
999999 default, an underscore, time end part or the 999999 default. -/
def filterEndKey (f : DateTimeSettings) : String :=
  orDefault f.dateEnd "999999" ++ "_" ++ orDefault f.timeEnd "999999"

/-- Overlap of the closed composite-key intervals: some key lies in
both. -/
def OverlapI (a b c d : String) : Prop := ∃ k, a ≤ k ∧ k ≤ b ∧ c ≤ k ∧ k ≤ d

/-- Record filter for the claim C1 witness: a proper window 13:00 to
15:00 on one date. -/
def c1WitFilter : DateTimeSettings :=
  ⟨some "20230101", some "20230101", some "130000", some "150000", false, none, none⟩

/-- Record filter for the claim C1 counterexample: an inverted (empty)
window, end time before start time on the same date. -/
def c1CexFilter : DateTimeSettings :=
  ⟨some "20230101", some "20230101", some "150000", some "140000", false, none, none⟩

/-- The payload date/time fields for a day and a time string. -/
def dtFieldsOf (dte : Ymd) (v : String) : DateTimeFields :=
  ⟨dte.year, dte.mon, dte.day, (hmsOfTimeString v).1, (hmsOfTimeString v).2.1,
    (hmsOfTimeString v).2.2⟩

/-! ## Theorems -/

/-- Lexicographic list order is invariant under a common prefix. -/
theorem list_append_lt_append_iff (p x y : List Char) :
    p ++ x < p ++ y ↔ x < y := by
  induction p with
  | nil => simp
  | cons c cs ih =>
    rw [List.cons_append, List.cons_append]
    constructor
    · intro h
      cases h with
      | rel h => exact absurd h (lt_irrefl c)
      | cons h => exact ih.mp h
    · intro h
      exact List.Lex.cons (ih.mpr h)

/-- String lexicographic strict order is invariant under a common prefix. -/
theorem string_append_lt_append_iff (p x y : String) :
    p ++ x < p ++ y ↔ x < y := by
  rw [String.lt_iff_toList_lt, String.lt_iff_toList_lt]
  show p.data ++ x.data < p.data ++ y.data ↔ _
  exact list_append_lt_append_iff p.data x.data y.data

/-- String lexicographic order is invariant under a common prefix. -/
theorem string_append_le_append_iff (p x y : String) :
    p ++ x ≤ p ++ y ↔ x ≤ y := by
  rw [← not_lt, ← not_lt, string_append_lt_append_iff]

/-- The executable list comparison agrees with the lexicographic order. -/
theorem listLtB_iff (s : List Char) : ∀ t, listLtB s t = true ↔ s < t := by
  induction s with
  | nil =>
    intro t
    cases t with
    | nil =>
      simp only [listLtB, Bool.false_eq_true, false_iff]
      exact lt_irrefl []
    | cons b bs =>
      simp only [listLtB, true_iff]
      exact List.Lex.nil
  | cons a as ih =>
    intro t
    cases t with
    | nil =>
      simp only [listLtB, Bool.false_eq_true, false_iff]
      exact List.Lex.not_nil_right _ _
    | cons b bs =>
      by_cases hab : a < b
      · simp only [listLtB, hab, if_true, true_iff]
        exact List.Lex.rel hab
      · by_cases hba : b < a
        · simp only [listLtB, hab, hba, if_true, if_false, Bool.false_eq_true, false_iff]
          intro h
          cases h with
          | rel h => exact hab h
          | cons h => exact lt_irrefl a hba
        · have hEq : a = b := le_antisymm (not_lt.mp hba) (not_lt.mp hab)
          subst hEq
          simp only [listLtB, lt_irrefl, if_false]
          exact (ih bs).trans List.Lex.cons_iff.symm

/-- The executable string comparison agrees with the string order. -/
theorem strLtB_iff (s t : String) : strLtB s t = true ↔ s < t := by
  rw [String.lt_iff_toList_lt]
  exact listLtB_iff s.data t.data

/-- The executable string comparison agrees with the string order. -/
theorem strLeB_iff (s t : String) : strLeB s t = true ↔ s ≤ t := by
  have h := strLtB_iff t s
  constructor
  · intro hx
    rw [← not_lt]
    intro hlt
    have hT : strLtB t s = true := h.mpr hlt
    simp [strLeB, hT] at hx
  · intro hx
    have hF : strLtB t s = false := by
      cases hEq : strLtB t s
      · rfl
      · exact absurd (h.mp hEq) (not_lt.mpr hx)
    simp [strLeB, hF]

/-- A string of positive length is not empty. -/
theorem strIsEmpty_eq_false_of_length_pos {s : String} (h : 0 < s.length) :
    strIsEmpty s = false := by
  unfold strIsEmpty
  cases hd : s.data with
  | nil =>
    exfalso
    have : s.length = 0 := by
      show s.data.length = 0
      rw [hd]
      rfl
    omega
  | cons c cs => rfl

/-- A truthy optional string prints as its default-or-value. -/
theorem orDefault_of_truthy {o : Option String} (d : String) (h : jsTruthy o = true) :
    orDefault o d = optToStr o := by
  cases o with
  | none => simp [jsTruthy] at h
  | some s =>
    simp only [jsTruthy, Bool.not_eq_true'] at h
    simp [orDefault, optToStr, h]

/-- A falsy optional string falls back to the default. -/
theorem orDefault_of_falsy {o : Option String} (d : String) (h : jsTruthy o = false) :
    orDefault o d = d := by
  cases o with
  | none => rfl
  | some s =>
    have hs : strIsEmpty s = true := by simpa [jsTruthy] using h
    simp [orDefault, hs]

/-- The default-or-value of a non-empty default is non-empty. -/
theorem strIsEmpty_orDefault {o : Option String} {d : String}
    (hd : strIsEmpty d = false) : strIsEmpty (orDefault o d) = false := by
  cases o with
  | none => exact hd
  | some s =>
    by_cases hs : strIsEmpty s
    · simp [orDefault, hs, hd]
    · simp only [Bool.not_eq_true] at hs
      simp [orDefault, hs]

/-- Claim C4 — processRecordFilter pads. -/
theorem c4_processRecordFilter_padding :
    processRecordFilter (some "1") = some "010000" ∧
    processRecordFilter (some "13") = some "130000" ∧
    processRecordFilter none = none ∧
    (∀ s : String, jsTrim s = "" → processRecordFilter (some s) = none) ∧
    (∀ s : String, jsTrim s = s → s.length = 1 →
      processRecordFilter (some s) = some ("0" ++ s ++ "0000")) ∧
    (∀ s : String, jsTrim s = s → 2 ≤ s.length → s.length < 6 →
      processRecordFilter (some s) = some (s ++ String.mk (List.replicate (6 - s.length) '0'))) ∧
    (∀ s : String, jsTrim s = s → 6 ≤ s.length → processRecordFilter (some s) = some s) := by
  refine ⟨by decide, by decide, rfl, ?_, ?_, ?_, ?_⟩
  · intro s h
    by_cases he : strIsEmpty s
    · simp [processRecordFilter, he]
    · simp only [Bool.not_eq_true] at he
      simp [processRecordFilter, he, h]
  · intro s ht h1
    have he : strIsEmpty s = false := strIsEmpty_eq_false_of_length_pos (by omega)
    have hb : (s.length == 1) = true := beq_iff_eq.mpr h1
    have h0 : ("0" : String).length = 1 := rfl
    have h4 : 6 - ("0" ++ s).length = 4 := by rw [String.length_append, h0, h1]
    simp only [processRecordFilter, he, Bool.false_eq_true, if_false, ht, hb, if_true]
    rw [if_pos (by omega), if_pos (by omega), h4]
    show some (padRightZeros ("0" ++ s) 4) = _
    unfold padRightZeros
    congr 1
  · intro s ht h2 h6
    have he : strIsEmpty s = false := strIsEmpty_eq_false_of_length_pos (by omega)
    have hne1 : (s.length == 1) = false := beq_eq_false_iff_ne.mpr (by omega)
    simp only [processRecordFilter, he, Bool.false_eq_true, if_false, ht]
    rw [if_pos (by omega), if_pos h6, hne1]
    rfl
  · intro s ht h6
    have he : strIsEmpty s = false := strIsEmpty_eq_false_of_length_pos (by omega)
    simp only [processRecordFilter, he, Bool.false_eq_true, if_false, ht]
    rw [if_pos (by omega), if_neg (by omega)]

/-- Witness for claim C4 at concrete inputs. -/
theorem c4_witness :
    jsTrim "1234" = "1234" ∧ (2 ≤ "1234".length ∧ "1234".length < 6) ∧
      processRecordFilter (some "1234") =
        some ("1234" ++ String.mk (List.replicate (6 - "1234".length) '0')) :=
  ⟨by decide, ⟨by decide, by decide⟩,
    c4_processRecordFilter_padding.2.2.2.2.2.1 "1234" (by decide) (by decide) (by decide)⟩

/-- Claim C5 — when no end date is given, the end date defaults to the
resolved start date, or to the start date plus one calendar day when the
processed end time precedes the processed start time. -/
theorem c5_end_date_default (clock : Clock) (dt : DateTimeSettings) (D : Ymd)
    (hend : dt.dateEnd = none)
    (hparse : parseYyyymmdd (optToStr (resolvedStartDate clock dt)) = some D) :
    (validateDateTime clock dt).dateEnd =
      if jsLtOpt (processRecordFilter dt.timeEnd) (processRecordFilter dt.timeStart)
      then some (fmtDate (nextDay D))
      else resolvedStartDate clock dt := by
  unfold validateDateTime
  have hde : jsTruthy (getDateByParameters clock none) = false := by
    simp [getDateByParameters, jsTruthy]
  have hadd : momentAddDayFmt (optToStr (resolvedStartDate clock dt)) = fmtDate (nextDay D) := by
    unfold momentAddDayFmt
    rw [hparse]
  unfold resolvedStartDate at hadd
  by_cases hlm : jsTruthyNat dt.lastMinutes = true <;>
  by_cases hlt : jsLtOpt (processRecordFilter dt.timeEnd) (processRecordFilter dt.timeStart) = true <;>
  simp [validateDateTime, hend, hde, hlm, hlt, hadd, resolvedStartDate]

/-- Witness for claim C5: the range 20230228 23:00 to 01:00 spans
midnight, so the end date becomes the next calendar day. -/
theorem c5_witness : (validateDateTime c5Clock c5Dt).dateEnd = some "20230301" :=
  (c5_end_date_default c5Clock c5Dt ⟨2023, 2, 28⟩ rfl (by decide)).trans (by decide)

/-- Claim C3 — a transport error, a timeout or a non-200 response makes
the content request yield no content and the table-row listing yield an
empty item list; the embedding is total, so no exception escapes and a
sweep over further dates continues. -/
theorem c3_listing_failure_yields_empty (fetch : String → ReqResult)
    (parse : String → List String) (url : String)
    (h : ∀ b, fetch url ≠ ReqResult.response 200 b) :
    httpContentRequest (fetch url) = none ∧ getTableRowItems fetch parse url = [] := by
  have hnone : httpContentRequest (fetch url) = none := by
    cases hf : fetch url with
    | response st body =>
      have hst : (st == 200) = false := by
        cases hb : st == 200
        · rfl
        · have hst2 : st = 200 := by simpa using hb
          rw [hst2] at hf
          exact absurd hf (h body)
      simp [httpContentRequest, hst]
    | transportError m => simp [httpContentRequest]
    | timeout => simp [httpContentRequest]
  refine ⟨hnone, ?_⟩
  simp [getTableRowItems, hnone]

/-- Witness for claim C3 at a concrete timed-out request. -/
theorem c3_witness :
    httpContentRequest ((fun _ => ReqResult.timeout) "http://cam/sd") = none ∧
    getTableRowItems (fun _ => ReqResult.timeout) (fun _ => []) "http://cam/sd" = [] :=
  c3_listing_failure_yields_empty (fun _ => ReqResult.timeout) (fun _ => []) "http://cam/sd"
    (fun b h => ReqResult.noConfusion h)

/-- Claim C7 — the list command against the Reolink firmware: getRecords
receives no date field, performs no request (the result is independent of
the sweep oracle) and returns no dates, and Base.list then reports the
message No records found; the code never emits Feature not supported. -/
theorem c7_reolink_list_reports_no_records
    (sweep : Option String → Option String → List DateEntry) :
    reolinkGetRecords sweep none = [] ∧
    listReolink sweep = (["No records found"], none) :=
  ⟨rfl, rfl⟩

/-- Membership in the filtered date list: the date must come from a
listed item (with the trailing slash stripped) and pass the range
condition. -/
theorem mem_dateEntriesOfItems (sOpt eOpt : Option String) (items : List String) (d : String) :
    d ∈ dateEntriesOfItems sOpt eOpt items ↔
      d ∈ items.map dropLastChar ∧ dateKeep sOpt eOpt d = true := by
  induction items with
  | nil => simp [dateEntriesOfItems]
  | cons item rest ih =>
    show d ∈ (if dateKeep sOpt eOpt (dropLastChar item) then
        dropLastChar item :: dateEntriesOfItems sOpt eOpt rest
      else dateEntriesOfItems sOpt eOpt rest) ↔ _
    by_cases hk : dateKeep sOpt eOpt (dropLastChar item) = true
    · rw [if_pos hk]
      simp only [List.map_cons, List.mem_cons]
      constructor
      · rintro (rfl | hmem)
        · exact ⟨Or.inl rfl, hk⟩
        · have hr := ih.mp hmem
          exact ⟨Or.inr hr.1, hr.2⟩
      · rintro ⟨rfl | hmem, hcond⟩
        · exact Or.inl rfl
        · exact Or.inr (ih.mpr ⟨hmem, hcond⟩)
    · rw [if_neg hk]
      simp only [List.map_cons, List.mem_cons]
      constructor
      · intro hmem
        have hr := ih.mp hmem
        exact ⟨Or.inr hr.1, hr.2⟩
      · rintro ⟨rfl | hmem, hcond⟩
        · exact absurd hcond hk
        · exact ih.mpr ⟨hmem, hcond⟩

/-- Claim C9 — the date-range test admits a listed date exactly when it
lies between the bounds under plain string comparison, and an absent
bound admits every date on that side. -/
theorem c9_date_range_test (fetch : String → ReqResult) (parse : String → List String)
    (baseUrl : String) (A B d : String)
    (hA : isDigitString8 A = true) (hB : isDigitString8 B = true) (hAB : A ≤ B) :
    (d ∈ getDateEntries fetch parse baseUrl (some A) (some B) ↔
      d ∈ (getTableRowItems fetch parse baseUrl).map dropLastChar ∧ A ≤ d ∧ d ≤ B) ∧
    (d ∈ getDateEntries fetch parse baseUrl none (some B) ↔
      d ∈ (getTableRowItems fetch parse baseUrl).map dropLastChar ∧ d ≤ B) ∧
    (d ∈ getDateEntries fetch parse baseUrl (some A) none ↔
      d ∈ (getTableRowItems fetch parse baseUrl).map dropLastChar ∧ A ≤ d) ∧
    (d ∈ getDateEntries fetch parse baseUrl none none ↔
      d ∈ (getTableRowItems fetch parse baseUrl).map dropLastChar) := by
  have hAlen : 0 < A.length := by
    have := (Bool.and_eq_true _ _).mp hA
    have h8 : A.length = 8 := by simpa using this.1
    omega
  have hBlen : 0 < B.length := by
    have := (Bool.and_eq_true _ _).mp hB
    have h8 : B.length = 8 := by simpa using this.1
    omega
  have hAT : jsTruthy (some A) = true := by
    simp [jsTruthy, strIsEmpty_eq_false_of_length_pos hAlen]
  have hBT : jsTruthy (some B) = true := by
    simp [jsTruthy, strIsEmpty_eq_false_of_length_pos hBlen]
  have hAD : orDefault (some A) "" = A := orDefault_of_truthy "" hAT
  have hBD : orDefault (some B) "" = B := orDefault_of_truthy "" hBT
  have hAe : strIsEmpty A = false := strIsEmpty_eq_false_of_length_pos hAlen
  have hBe : strIsEmpty B = false := strIsEmpty_eq_false_of_length_pos hBlen
  refine ⟨?_, ?_, ?_, ?_⟩ <;>
  · unfold getDateEntries
    rw [mem_dateEntriesOfItems]
    simp [dateKeep, hAT, hBT, hAD, hBD, hAe, hBe, jsTruthy, strLeB_iff, and_assoc]

/-- Witness for claim C9 at a concrete listing. -/
theorem c9_witness :
    isDigitString8 "20230101" = true ∧ isDigitString8 "20230202" = true ∧
      ("20230101" : String) ≤ "20230202" ∧
      ("20230115" ∈ getDateEntries (fun _ => ReqResult.response 200 "x")
        (fun _ => ["r1", "r2", "r3", "20230115/"]) "http://cam/sd"
        (some "20230101") (some "20230202") ↔
        "20230115" ∈ ((getTableRowItems (fun _ => ReqResult.response 200 "x")
          (fun _ => ["r1", "r2", "r3", "20230115/"]) "http://cam/sd").map dropLastChar) ∧
          ("20230101" : String) ≤ "20230115" ∧ ("20230115" : String) ≤ "20230202") :=
  ⟨rfl, rfl, (strLeB_iff _ _).mp (by decide),
    (c9_date_range_test (fun _ => ReqResult.response 200 "x")
      (fun _ => ["r1", "r2", "r3", "20230115/"]) "http://cam/sd"
      "20230101" "20230202" "20230115" rfl rfl ((strLeB_iff _ _).mp (by decide))).1⟩

/-- The getRecords loop with its break check produces exactly one date
entry per discovered date, in order, when the break threshold is the
total number of entries. -/
theorem getRecordsLoop_eq (g : String → List String) :
    ∀ (l : List String) (done total : Nat), total = done + l.length →
      getRecordsLoop g total l done = l.map (fun v => ⟨v, g v⟩) := by
  intro l
  induction l with
  | nil => intro done total h; rfl
  | cons v rest ih =>
    intro done total h
    show (if total == done + 1 then [(⟨v, g v⟩ : DateEntry)]
      else ⟨v, g v⟩ :: getRecordsLoop g total rest (done + 1)) = _
    by_cases hr : rest = []
    · subst hr
      have ht : total = done + 1 := by simpa using h
      rw [if_pos (by simpa using beq_iff_eq.mpr ht)]
      simp
    · have hlen : rest.length ≠ 0 := by
        simpa [List.length_eq_zero] using hr
      have hne : (total == done + 1) = false := by
        apply beq_eq_false_iff_ne.mpr
        simp only [List.length_cons] at h
        omega
      rw [hne]
      simp only [Bool.false_eq_true, if_false, List.map_cons]
      rw [ih (done + 1) total (by simp only [List.length_cons] at h; omega)]

/-- Claim C10 — Hi3510 record discovery returns one date entry per date
passing the date-range test, in order, keeping dates whose filtered
record list is empty; each entry carries exactly the admitted records of
its date. -/
theorem c10_empty_dates_kept (fetch : String → ReqResult) (parse : String → List String)
    (baseUrl : String) (dt : DateTimeSettings) :
    ((hi3510GetRecords fetch parse baseUrl dt).map DateEntry.date =
      getDateEntries fetch parse baseUrl dt.dateStart dt.dateEnd) ∧
    ∀ de ∈ hi3510GetRecords fetch parse baseUrl dt,
      de.records = get264Entries fetch parse baseUrl de.date dt := by
  have hloop := getRecordsLoop_eq (fun v => get264Entries fetch parse baseUrl v dt)
    (getDateEntries fetch parse baseUrl dt.dateStart dt.dateEnd) 0
    (getDateEntries fetch parse baseUrl dt.dateStart dt.dateEnd).length (by omega)
  unfold hi3510GetRecords
  rw [hloop]
  constructor
  · rw [List.map_map]
    have hcomp : (DateEntry.date ∘ fun v =>
        (⟨v, get264Entries fetch parse baseUrl v dt⟩ : DateEntry)) = id := rfl
    rw [hcomp, List.map_id]
  · intro de hde
    simp only [List.mem_map] at hde
    obtain ⟨v, hv, rfl⟩ := hde
    rfl

/-- Witness for claim C10: the discovered date is kept with an empty
record list. -/
theorem c10_witness :
    (⟨"20230101", []⟩ : DateEntry) ∈ hi3510GetRecords c10Fetch c10Parse "http://h/sd" c10Dt ∧
    (⟨"20230101", []⟩ : DateEntry).records =
      get264Entries c10Fetch c10Parse "http://h/sd" "20230101" c10Dt :=
  ⟨by decide, (c10_empty_dates_kept c10Fetch c10Parse "http://h/sd" c10Dt).2
    ⟨"20230101", []⟩ (by decide)⟩

/-- Claim C2 — when no explicit per-host output filename applies, the
derived output filename is prefix (optional user value, host), range
(first record date and start time, then last date when different and last
end time, or the single record end time) and the lower-cased target file
type, which getSettings defaults to mp4. -/
theorem c2_filename_derivation (codec : Codec) (clock : Clock) (o : FetchOptions)
    (host : String) (idx : Nat) (r0 : String) (rest : List String) (sep : Bool)
    (d0 s0 e0 dl sl el : String)
    (hname : (jsTruthy (getFilenameByIdx (getSettings clock o) idx) && !sep) = false)
    (h0 : getDateAndTimeParts codec r0 = ⟨some d0, some s0, some e0⟩)
    (hl : getDateAndTimeParts codec (rest.getLastD r0) = ⟨some dl, some sl, some el⟩) :
    getFilename codec host idx (getSettings clock o) (r0 :: rest) sep =
      some (((if jsTruthy o.filenamePrefix then orDefault o.filenamePrefix "" ++ "_" else "") ++
          host ++ "_") ++
        (if rest.isEmpty then d0 ++ "_" ++ s0 ++ "_" ++ e0
         else if dl ≠ d0 then d0 ++ "_" ++ s0 ++ "_" ++ dl ++ "_" ++ el
         else d0 ++ "_" ++ s0 ++ "_" ++ el) ++
        "." ++ jsToLower (orDefault o.targetFileType "mp4")) := by
  have hT : optToStr (getFileTypeByFfmpegParams (getSettings clock o)) =
      jsToLower (orDefault o.targetFileType "mp4") := by
    have hne : strIsEmpty (orDefault o.targetFileType "mp4") = false :=
      strIsEmpty_orDefault rfl
    show optToStr (if strIsEmpty (orDefault o.targetFileType "mp4") = true then none
      else some (jsToLower (orDefault o.targetFileType "mp4"))) = _
    rw [hne]
    rfl
  have hP : getFilenamePrefix (getSettings clock o) host =
      (if jsTruthy o.filenamePrefix then orDefault o.filenamePrefix "" ++ "_" else "") ++
        host ++ "_" := rfl
  simp only [getFilename, hname, Bool.false_eq_true, if_false, hT, hP]
  cases rest with
  | nil =>
    simp only [rangeOfRecords, h0, List.isEmpty_nil, if_true]
    rfl
  | cons h t =>
    rw [List.getLastD_cons] at hl
    simp only [rangeOfRecords, h0, List.getLastD_cons, hl, List.isEmpty_cons, if_false]
    by_cases hd : dl = d0
    · subst hd
      rw [if_neg (show ¬(dl ≠ dl) from fun hc => hc rfl)]
      simp only [bne_self_eq_false, Bool.false_eq_true, if_false]
      rfl
    · have hbne : (some dl != some d0) = true := by
        simp [bne_iff_ne, hd]
      simp only [hbne, if_true, if_pos hd]
      rfl

/-- Witness for claim C2: the concrete single-record example of the
specification. -/
theorem c2_witness :
    getFilename c2Codec "1.2.3.4" 0 (getSettings c2Clock c2Opts) ["rec.264"] false =
      some "1.2.3.4_20230101_120000_123000.mp4" :=
  (c2_filename_derivation c2Codec c2Clock c2Opts "1.2.3.4" 0 "rec.264" [] false
    "20230101" "120000" "123000" "20230101" "120000" "123000"
    (by decide) (by decide) (by decide)).trans (by decide)

/-- Claim C8 amended — in separate-by-date mode the explicit per-host
output filename is ignored: the per-date output name is always derived
from the records (prefix, range, extension), and the result does not
depend on the configured filename list at all. -/
theorem c8_separate_derives_name (codec : Codec) (host : String) (idx : Nat)
    (s : Settings) :
    (∀ r0 rest, getFilename codec host idx s (r0 :: rest) true =
      some (getFilenamePrefix s host ++ rangeOfRecords codec r0 rest ++ "." ++
        optToStr (getFileTypeByFfmpegParams s))) ∧
    ∀ records, getFilename codec host idx s records true =
      getFilename codec host idx
        ⟨⟨s.fs.directory, s.fs.prefixOpt, []⟩, s.ffmpeg, s.dateTime⟩ records true := by
  constructor
  · intro r0 rest
    simp only [getFilename, Bool.not_true, Bool.and_false, Bool.false_eq_true, if_false]
  · intro records
    cases records with
    | nil => rfl
    | cons r0 rest =>
      simp only [getFilename, Bool.not_true, Bool.and_false, Bool.false_eq_true, if_false]
      rfl

/-- Counterexample to claim C8 as stated: an explicit output filename is
supplied for this host index, yet the separate-by-date output name is the
derived one, not the supplied name (with or without the extension). -/
theorem c8_counterexample :
    getFilenameByIdx c8Settings 0 = some "custom" ∧
    getFilename c8Codec "cam1" 0 c8Settings ["r.264"] true =
      some "cam1_230101_120000_123000.mp4" ∧
    getFilename c8Codec "cam1" 0 c8Settings ["r.264"] true ≠ some "custom" ∧
    getFilename c8Codec "cam1" 0 c8Settings ["r.264"] true ≠ some "custom.mp4" :=
  ⟨rfl, by decide, by decide, by decide⟩

/-- Claim C1 (amended with a non-empty filter window) — a record whose
decoded interval is ordered is admitted exactly when its name avoids the
999999 sentinel and its composite interval overlaps the composite filter
window. -/
theorem c1_record_filter_overlap (d r : String) (f : DateTimeSettings) (s e : String)
    (hs : hi3510Extract r PartKind.time true = some s)
    (he : hi3510Extract r PartKind.time false = some e)
    (hse : s ≤ e)
    (hwin : filterStartKey f ≤ filterEndKey f) :
    admit264 d r f = true ↔
      strHasInfix r "999999" = false ∧
        OverlapI (d ++ "_" ++ s) (d ++ "_" ++ e) (filterStartKey f) (filterEndKey f) := by
  have hAB : d ++ "_" ++ s ≤ d ++ "_" ++ e :=
    (string_append_le_append_iff (d ++ "_") s e).mpr hse
  simp only [admit264, Bool.and_eq_true, Bool.not_eq_true']
  apply and_congr Iff.rfl
  simp only [isValidRecord, getDateAndTimeFilterAsString, hs, he, optToStr, Option.getD,
    if_true, if_false, Bool.and_eq_true, Bool.or_eq_true, strLeB_iff, OverlapI,
    filterStartKey, filterEndKey]
  constructor
  · rintro ⟨h1, h2⟩
    have hFsB : _ ≤ d ++ "_" ++ e := h1.elim (fun hx => le_trans hx hAB) id
    have hAFe : d ++ "_" ++ s ≤ _ := h2.elim (fun hx => le_trans hAB hx) id
    exact ⟨max (d ++ "_" ++ s) (filterStartKey f), le_max_left _ _, max_le hAB hFsB,
      le_max_right _ _, max_le hAFe hwin⟩
  · rintro ⟨k, hAk, hkB, hFsk, hkFe⟩
    exact ⟨Or.inr (le_trans hFsk hkB), Or.inr (le_trans hAk hkFe)⟩

/-- Witness for the amended claim C1 at a record from 12:00 to 16:00
overlapping the window 13:00 to 15:00. -/
theorem c1_witness :
    hi3510Extract "A230101_120000_160000.264" PartKind.time true = some "120000" ∧
    hi3510Extract "A230101_120000_160000.264" PartKind.time false = some "160000" ∧
    ("120000" : String) ≤ "160000" ∧
    filterStartKey c1WitFilter ≤ filterEndKey c1WitFilter ∧
    (admit264 "20230101" "A230101_120000_160000.264" c1WitFilter = true ↔
      strHasInfix "A230101_120000_160000.264" "999999" = false ∧
        OverlapI ("20230101" ++ "_" ++ "120000") ("20230101" ++ "_" ++ "160000")
          (filterStartKey c1WitFilter) (filterEndKey c1WitFilter)) :=
  ⟨by decide, by decide, (strLeB_iff _ _).mp (by decide), (strLeB_iff _ _).mp (by decide),
    c1_record_filter_overlap "20230101" "A230101_120000_160000.264" c1WitFilter
      "120000" "160000" (by decide) (by decide)
      ((strLeB_iff _ _).mp (by decide)) ((strLeB_iff _ _).mp (by decide))⟩

/-- Counterexample to claim C1 as stated over every filter: with an
inverted window the record from 12:00 to 16:00 is admitted by the code
although its interval overlaps no point of the (empty) window. -/
theorem c1_counterexample :
    hi3510Extract "A230101_120000_160000.264" PartKind.time true = some "120000" ∧
    hi3510Extract "A230101_120000_160000.264" PartKind.time false = some "160000" ∧
    ("120000" : String) ≤ "160000" ∧
    admit264 "20230101" "A230101_120000_160000.264" c1CexFilter = true ∧
    ¬ OverlapI ("20230101" ++ "_" ++ "120000") ("20230101" ++ "_" ++ "160000")
        (filterStartKey c1CexFilter) (filterEndKey c1CexFilter) := by
  refine ⟨by decide, by decide, (strLeB_iff _ _).mp (by decide), by decide, ?_⟩
  rintro ⟨k, h1, h2, h3, h4⟩
  have hb : strLeB (filterStartKey c1CexFilter) (filterEndKey c1CexFilter) = true :=
    (strLeB_iff _ _).mpr (le_trans h3 h4)
  exact absurd hb (by decide)

/-- Containment of true in a four-element boolean list is the
disjunction. -/
theorem contains4 (a b c d : Bool) : [a, b, c, d].contains true = (a || b || c || d) := by
  cases a <;> cases b <;> cases c <;> cases d <;> rfl

/-- On the first of several days the start bound is the user time or the
000000 default. -/
theorem getTime_start_first (ts : Option String) (n : Nat) (h : 2 ≤ n) :
    getTime ts ⟨0, n, false⟩ = orDefault ts "000000" := by
  have hlast : ((0 : Nat) == n - 1) = false := beq_eq_false_iff_ne.mpr (by omega)
  cases hts : jsTruthy ts
  · rw [orDefault_of_falsy _ hts]
    simp [getTime, contains4, hlast, hts]
  · rw [orDefault_of_truthy _ hts]
    simp [getTime, contains4, hlast, hts]

/-- On the first of several days the end bound is always 235959. -/
theorem getTime_end_first (te : Option String) (n : Nat) (h : 2 ≤ n) :
    getTime te ⟨0, n, true⟩ = "235959" := by
  have hmul : decide (n > 1) = true := decide_eq_true (by omega)
  simp [getTime, contains4, hmul]

/-- On an interior day both bounds are the defaults. -/
theorem getTime_interior (t : Option String) (n i : Nat) (ef : Bool)
    (h0 : 0 < i) (h1 : i < n - 1) :
    getTime t ⟨i, n, ef⟩ = (if ef then "235959" else "000000") := by
  have hfst : (i == 0) = false := beq_eq_false_iff_ne.mpr (by omega)
  have hlast : (i == n - 1) = false := beq_eq_false_iff_ne.mpr (by omega)
  simp [getTime, contains4, hfst, hlast]

/-- On the last of several days the start bound is always 000000. -/
theorem getTime_start_last (ts : Option String) (n : Nat) (h : 2 ≤ n) :
    getTime ts ⟨n - 1, n, false⟩ = "000000" := by
  have hmul : decide (n > 1) = true := decide_eq_true (by omega)
  have hself : (n - 1 == n - 1) = true := beq_iff_eq.mpr rfl
  simp [getTime, contains4, hmul, hself]

/-- On the last of several days the end bound is the user time or the
235959 default. -/
theorem getTime_end_last (te : Option String) (n : Nat) (h : 2 ≤ n) :
    getTime te ⟨n - 1, n, true⟩ = orDefault te "235959" := by
  have hfst : (n - 1 == 0) = false := beq_eq_false_iff_ne.mpr (by omega)
  have hself : (n - 1 == n - 1) = true := beq_iff_eq.mpr rfl
  cases hte : jsTruthy te
  · rw [orDefault_of_falsy _ hte]
    simp [getTime, contains4, hfst, hself, hte]
  · rw [orDefault_of_truthy _ hte]
    simp [getTime, contains4, hfst, hself, hte]

/-- On the single day of a one-day sweep the start bound is the user time
or the 000000 default. -/
theorem getTime_single_start (ts : Option String) :
    getTime ts ⟨0, 1, false⟩ = orDefault ts "000000" := by
  cases hts : jsTruthy ts
  · rw [orDefault_of_falsy _ hts]
    simp [getTime, contains4, hts]
  · rw [orDefault_of_truthy _ hts]
    simp [getTime, contains4, hts]

/-- On the single day of a one-day sweep the end bound is the user time
or the 235959 default. -/
theorem getTime_single_end (te : Option String) :
    getTime te ⟨0, 1, true⟩ = orDefault te "235959" := by
  cases hte : jsTruthy te
  · rw [orDefault_of_falsy _ hte]
    simp [getTime, contains4, hte]
  · rw [orDefault_of_truthy _ hte]
    simp [getTime, contains4, hte]

/-- Claim C6 — per-day search payload bounds of the Reolink sweep: on a
multi-day sweep the first day carries the user start time (or 000000)
and the 235959 end bound, interior days carry the full-day bounds, the
last day carries the 000000 start bound and the user end time (or
235959); a single-day sweep carries the user bounds with the same
defaults. -/
theorem c6_reolink_day_bounds (dte : Ymd) (ts te : Option String) (n i : Nat)
    (h2 : 2 ≤ n) (hi : i < n) :
    ((i = 0 →
      (getPlaybackListPostData dte ts te ⟨i, n, false⟩).startTime =
        dtFieldsOf dte (orDefault ts "000000") ∧
      (getPlaybackListPostData dte ts te ⟨i, n, false⟩).endTime = dtFieldsOf dte "235959") ∧
     (0 < i → i < n - 1 →
      (getPlaybackListPostData dte ts te ⟨i, n, false⟩).startTime = dtFieldsOf dte "000000" ∧
      (getPlaybackListPostData dte ts te ⟨i, n, false⟩).endTime = dtFieldsOf dte "235959") ∧
     (i = n - 1 →
      (getPlaybackListPostData dte ts te ⟨i, n, false⟩).startTime = dtFieldsOf dte "000000" ∧
      (getPlaybackListPostData dte ts te ⟨i, n, false⟩).endTime =
        dtFieldsOf dte (orDefault te "235959"))) ∧
    (∀ ts1 te1 : Option String,
      (getPlaybackListPostData dte ts1 te1 ⟨0, 1, false⟩).startTime =
        dtFieldsOf dte (orDefault ts1 "000000") ∧
      (getPlaybackListPostData dte ts1 te1 ⟨0, 1, false⟩).endTime =
        dtFieldsOf dte (orDefault te1 "235959")) := by
  refine ⟨⟨?_, ?_, ?_⟩, ?_⟩
  · rintro rfl
    constructor
    · show dtFieldsOf dte (getTime ts ⟨0, n, false⟩) = _
      rw [getTime_start_first ts n h2]
    · show dtFieldsOf dte (getTime te ⟨0, n, true⟩) = _
      rw [getTime_end_first te n h2]
  · intro h0 h1
    constructor
    · show dtFieldsOf dte (getTime ts ⟨i, n, false⟩) = _
      rw [getTime_interior ts n i false h0 h1]
      rfl
    · show dtFieldsOf dte (getTime te ⟨i, n, true⟩) = _
      rw [getTime_interior te n i true h0 h1]
      rfl
  · rintro rfl
    constructor
    · show dtFieldsOf dte (getTime ts ⟨n - 1, n, false⟩) = _
      rw [getTime_start_last ts n h2]
    · show dtFieldsOf dte (getTime te ⟨n - 1, n, true⟩) = _
      rw [getTime_end_last te n h2]
  · intro ts1 te1
    constructor
    · show dtFieldsOf dte (getTime ts1 ⟨0, 1, false⟩) = _
      rw [getTime_single_start ts1]
    · show dtFieldsOf dte (getTime te1 ⟨0, 1, true⟩) = _
      rw [getTime_single_end te1]

/-- Witness for claim C6 on the first day of a three-day sweep. -/
theorem c6_witness :
    (getPlaybackListPostData ⟨2023, 5, 1⟩ (some "083000") (some "213000")
        ⟨0, 3, false⟩).startTime =
      dtFieldsOf ⟨2023, 5, 1⟩ (orDefault (some "083000") "000000") ∧
    (getPlaybackListPostData ⟨2023, 5, 1⟩ (some "083000") (some "213000")
        ⟨0, 3, false⟩).endTime = dtFieldsOf ⟨2023, 5, 1⟩ "235959" :=
  (c6_reolink_day_bounds ⟨2023, 5, 1⟩ (some "083000") (some "213000") 3 0
    (by decide) (by decide)).1.1 rfl

